import Mathlib

/-!
Verification of the LLM-backed analysis pipeline of the monetaic backend.

The Python sources are shallowly embedded: strings are `List Char`, JSON
values are the inductive `Json`, Python exceptions are `PyExn`, and a
function that may raise returns `Except PyExn _`.  The external
text-generation service is a parameter (`GenOutcome`): either the call
raises, or it returns a response value.  The persistence layer is a
parameter as well; endpoints return the HTTP outcome together with the
ordered trace of persistence operations they issued.
-/

namespace Monetaic

/-- Untyped JSON values, as produced by `json.loads`.  Objects keep their
key order (Python dicts preserve insertion order). -/
inductive Json where
  | null : Json
  | bool (b : Bool) : Json
  | num (n : Int) : Json
  | str (s : List Char) : Json
  | arr (xs : List Json) : Json
  | obj (kvs : List (List Char × Json)) : Json

/-- Python exceptions relevant to the embedded code.  `msg` is the payload
of `str(e)` (interpolated values are elided where they never matter). -/
inductive PyExn where
  | valueError (m : List Char)
  | typeError (m : List Char)
  | keyError (m : List Char)
  | attributeError (m : List Char)
  | indexError (m : List Char)
  | jsonDecodeError (m : List Char)
  | openAIError (m : List Char)

/-- `str(e)` of an exception: its message payload. -/
def PyExn.msg : PyExn → List Char
  | .valueError m => m
  | .typeError m => m
  | .keyError m => m
  | .attributeError m => m
  | .indexError m => m
  | .jsonDecodeError m => m
  | .openAIError m => m

/-- Python truthiness of a JSON-shaped value (`bool(x)`). -/
def Json.truthy : Json → Bool
  | .null => false
  | .bool b => b
  | .num n => n != 0
  | .str s => !s.isEmpty
  | .arr xs => !xs.isEmpty
  | .obj kvs => !kvs.isEmpty

/-- The one-field dictionary `{"error": msg}` used throughout the source as
an error record. -/
def errDict (m : List Char) : Json := Json.obj [(("error".data), Json.str m)]

/-- `true` iff the value is a dictionary with an `error` key. -/
def hasErrorKey (j : Json) : Bool :=
  match j with
  | Json.obj kvs => kvs.any (fun p => p.1 == ("error".data))
  | _ => false

/-! ## The structured extractor (`extract_json`, src/services/finance_ai.py 21-34) -/

/-- JSON whitespace accepted by `json.loads` between tokens. -/
def isWsChar (c : Char) : Bool := c = ' ' || c = '\t' || c = '\n' || c = '\r'

/-- Drop leading JSON whitespace. -/
def skipWs : List Char → List Char
  | [] => []
  | c :: cs => if isWsChar c then skipWs cs else c :: cs

/-- Consume an expected literal tail (used for `null`, `true`, `false`). -/
def eatLit : List Char → List Char → Option (List Char)
  | [], cs => some cs
  | _ :: _, [] => none
  | l :: ls, c :: cs => if c = l then eatLit ls cs else none

/-- Value of a JSON escape character, if legal (`\uXXXX` escapes are outside
this model of `json.loads`). -/
def escChar (c : Char) : Option Char :=
  if c = '"' then some '"'
  else if c = '\\' then some '\\'
  else if c = '/' then some '/'
  else if c = 'n' then some '\n'
  else if c = 't' then some '\t'
  else if c = 'r' then some '\r'
  else if c = 'b' then some (Char.ofNat 8)
  else if c = 'f' then some (Char.ofNat 12)
  else none

/-- Parse the body of a JSON string after the opening quote; returns the
decoded characters and the remaining input after the closing quote. -/
def parseStringBody : List Char → Option (List Char × List Char)
  | [] => none
  | '"' :: rest => some ([], rest)
  | '\\' :: [] => none
  | '\\' :: e :: rest =>
    (match escChar e with
     | some c => (parseStringBody rest).map (fun p => (c :: p.1, p.2))
     | none => none)
  | c :: rest => (parseStringBody rest).map (fun p => (c :: p.1, p.2))

/-- Numeric value of a digit string. -/
def digitsToNat (ds : List Char) : Nat :=
  ds.foldl (fun a c => a * 10 + (c.toNat - 48)) 0

/-- Parse a non-negative integer numeral.  Fractional and exponent numerals
are outside this model of `json.loads` (no use in the repository produces
them on the inputs the claims touch). -/
def parseNumPos (cs : List Char) : Option (Int × List Char) :=
  let p := cs.span (fun c => c.isDigit)
  if p.1.isEmpty then none
  else
    match p.2 with
    | '.' :: _ => none
    | 'e' :: _ => none
    | 'E' :: _ => none
    | _ => some ((digitsToNat p.1 : Int), p.2)

/-- Parsing mode: a single value, the members of an object after `{`, or the
items of an array after `[`. -/
inductive PMode where
  | val : PMode
  | members : PMode
  | items : PMode

/-- Fuel-indexed recursive-descent JSON parser (the computational model of
Python's `json.loads`).  In `members`/`items` mode the partial object/array
is returned wrapped in `Json.obj`/`Json.arr`. -/
def parseF : Nat → PMode → List Char → Option (Json × List Char)
  | 0, _, _ => none
  | Nat.succ f, PMode.val, cs =>
    (match skipWs cs with
     | [] => none
     | c :: rest =>
       if c = '\x7b' then
         match skipWs rest with
         | '\x7d' :: r => some (Json.obj [], r)
         | r2 =>
           match parseF f PMode.members r2 with
           | some (Json.obj ms, r3) => some (Json.obj ms, r3)
           | _ => none
       else if c = '[' then
         match skipWs rest with
         | ']' :: r => some (Json.arr [], r)
         | r2 =>
           match parseF f PMode.items r2 with
           | some (Json.arr xs, r3) => some (Json.arr xs, r3)
           | _ => none
       else if c = '"' then
         match parseStringBody rest with
         | some p => some (Json.str p.1, p.2)
         | none => none
       else if c = '-' then
         match parseNumPos rest with
         | some p => some (Json.num (-p.1), p.2)
         | none => none
       else if c.isDigit then
         match parseNumPos (c :: rest) with
         | some p => some (Json.num p.1, p.2)
         | none => none
       else if c = 'n' then (eatLit ('u' :: 'l' :: 'l' :: []) rest).map (fun r => (Json.null, r))
       else if c = 't' then (eatLit ('r' :: 'u' :: 'e' :: []) rest).map (fun r => (Json.bool true, r))
       else if c = 'f' then (eatLit ('a' :: 'l' :: 's' :: 'e' :: []) rest).map (fun r => (Json.bool false, r))
       else none)
  | Nat.succ f, PMode.items, cs =>
    (match parseF f PMode.val cs with
     | none => none
     | some (v, r) =>
       match skipWs r with
       | ',' :: r2 =>
         match parseF f PMode.items r2 with
         | some (Json.arr xs, r3) => some (Json.arr (v :: xs), r3)
         | _ => none
       | ']' :: r2 => some (Json.arr (v :: []), r2)
       | _ => none)
  | Nat.succ f, PMode.members, cs =>
    (match skipWs cs with
     | '"' :: r =>
       (match parseStringBody r with
        | none => none
        | some kp =>
          match skipWs kp.2 with
          | ':' :: r2 =>
            (match parseF f PMode.val r2 with
             | none => none
             | some (v, r3) =>
               match skipWs r3 with
               | ',' :: r4 =>
                 (match parseF f PMode.members r4 with
                  | some (Json.obj ms, r5) => some (Json.obj ((kp.1, v) :: ms), r5)
                  | _ => none)
               | '\x7d' :: r4 => some (Json.obj ((kp.1, v) :: []), r4)
               | _ => none)
          | _ => none)
     | _ => none)

/-- Model of Python's `json.loads`: parse one JSON value and require only
whitespace after it.  On failure the result is the `json.JSONDecodeError`
message.  Restrictions of the model (documented, not exercised by any
claim): numerals are integers only, `\uXXXX` escapes are rejected, leading
zeros and raw control characters inside strings are not rejected. -/
def loads (cs : List Char) : Except (List Char) Json :=
  match parseF (2 * cs.length + 4) PMode.val cs with
  | some (j, rest) =>
    if (skipWs rest).isEmpty then Except.ok j
    else Except.error ("Extra data".data)
  | none => Except.error ("Expecting value".data)

/-- Drop the longest suffix whose characters all satisfy `p`. -/
def trimTail (p : Char → Bool) (l : List Char) : List Char :=
  (l.reverse.dropWhile p).reverse

/-- The span matched by `re.search(r"\x7b.*\x7d", text, re.DOTALL)`:
the regex is leftmost-greedy, so a match (when one exists) runs from the
first `\x7b` of the text to the last `\x7d` of the text that lies after it.
Implementation: cut the text down to the first opening brace, then cut the
result down to its last closing brace; the span matches exactly when at
least two characters remain. -/
def extractSpan (cs : List Char) : Option (List Char) :=
  let sp := trimTail (fun c => c != '\x7d') (cs.dropWhile (fun c => c != '\x7b'))
  if 2 ≤ sp.length then some sp else none

/-- `extract_json` (src/services/finance_ai.py 21-34): search the text for
the greedy `\x7b.*\x7d` span and `json.loads` it.  A `JSONDecodeError` is
caught and converted to the error record; when no span exists the function
raises `ValueError("No JSON found in OpenAI response")`, which the lone
`except json.JSONDecodeError` clause does not catch. -/
def extract_json (response_text : List Char) : Except PyExn Json :=
  match extractSpan response_text with
  | some sp =>
    (match loads sp with
     | Except.ok j => Except.ok j
     | Except.error _ => Except.ok (errDict ("Invalid JSON format from OpenAI".data)))
  | none => Except.error (PyExn.valueError ("No JSON found in OpenAI response".data))

/-! ## Python dynamic access helpers -/

/-- Does `needle` start `hay`? (helper for Python substring membership). -/
def startsWithList : List Char → List Char → Bool
  | [], _ => true
  | _ :: _, [] => false
  | a :: as, b :: bs => a == b && startsWithList as bs

/-- Python `needle in hay` for strings: substring containment. -/
def containsSub (needle : List Char) : List Char → Bool
  | [] => needle.isEmpty
  | c :: t => startsWithList needle (c :: t) || containsSub needle t

/-- Python `key in container`.  Dicts test keys, lists test element
equality with the string, strings test substring containment; other values
raise `TypeError`. -/
def pyIn (k : List Char) : Json → Except PyExn Bool
  | Json.obj kvs => Except.ok (kvs.any (fun p => p.1 == k))
  | Json.arr xs =>
    Except.ok (xs.any (fun v => match v with | Json.str s => s == k | _ => false))
  | Json.str s => Except.ok (containsSub k s)
  | _ => Except.error (PyExn.typeError ("argument is not iterable".data))

/-- Python `container[key]` for a string key. -/
def pyGetItemStr (container : Json) (k : List Char) : Except PyExn Json :=
  match container with
  | Json.obj kvs =>
    (match List.lookup k kvs with
     | some v => Except.ok v
     | none => Except.error (PyExn.keyError k))
  | _ => Except.error (PyExn.typeError ("indices must be integers".data))

/-- Python `container[i]` for a natural index. -/
def pyGetItemNat (container : Json) (i : Nat) : Except PyExn Json :=
  match container with
  | Json.arr xs =>
    (match xs.get? i with
     | some v => Except.ok v
     | none => Except.error (PyExn.indexError ("list index out of range".data)))
  | Json.str s =>
    (match s.get? i with
     | some c => Except.ok (Json.str (c :: []))
     | none => Except.error (PyExn.indexError ("string index out of range".data)))
  | Json.obj _ => Except.error (PyExn.keyError ("0".data))
  | _ => Except.error (PyExn.typeError ("object is not subscriptable".data))

/-- Whitespace removed by Python `str.strip()`. -/
def isPyWs (c : Char) : Bool :=
  c = ' ' || c = '\t' || c = '\n' || c = '\r' || c = '\x0b' || c = '\x0c'

/-- Python `s.strip()`. -/
def pyStrip (s : List Char) : List Char :=
  trimTail isPyWs (s.dropWhile isPyWs)

/-- `.strip()` is an attribute access: it raises `AttributeError` unless the
value is a string. -/
def asStr : Json → Except PyExn (List Char)
  | Json.str s => Except.ok s
  | _ => Except.error (PyExn.attributeError ("object has no attribute strip".data))

/-! ## The text-generation client (`call_openai`, src/services/finance_ai.py 36-64)

The external `openai.ChatCompletion.create` call is a parameter: it either
raises an exception or returns a response value (consumed dict-style by the
source, hence modelled as an arbitrary `Json`).  The prompt only feeds the
service, so it does not appear in the model of the outcome. -/

/-- Behaviour of one `openai.ChatCompletion.create` invocation. -/
inductive GenOutcome where
  | raises (e : PyExn) : GenOutcome
  | returns (response : Json) : GenOutcome

/-- The `try:` body of `call_openai` after the service returned `response`
(src/services/finance_ai.py 48-56): the emptiness guard, the
`response["choices"][0]["message"]["content"].strip()` chain, the empty-text
guard, and the final `extract_json`. -/
def call_openai_body (response : Json) : Except PyExn Json := do
  let isEmptyResp : Bool ←
    if !response.truthy then pure true
    else do
      let hasChoices ← pyIn ("choices".data) response
      if !hasChoices then pure true
      else do
        let ch ← pyGetItemStr response ("choices".data)
        pure (!ch.truthy)
  if isEmptyResp then
    Except.error (PyExn.valueError ("Empty response from OpenAI API".data))
  else do
    let ch ← pyGetItemStr response ("choices".data)
    let c0 ← pyGetItemNat ch 0
    let m ← pyGetItemStr c0 ("message".data)
    let content ← pyGetItemStr m ("content".data)
    let s ← asStr content
    let response_text := pyStrip s
    if response_text.isEmpty then
      Except.error (PyExn.valueError ("OpenAI API returned an empty response".data))
    else extract_json response_text

/-- `call_openai` (src/services/finance_ai.py 36-64).  The `try` wraps the
service call and the body; `except openai.error.OpenAIError` returns the
fixed error record and the catch-all `except Exception` returns
`{"error": str(e)}` — so the function never raises. -/
def call_openai (o : GenOutcome) : Json :=
  match (match o with
         | GenOutcome.raises e => Except.error e
         | GenOutcome.returns r => call_openai_body r : Except PyExn Json) with
  | Except.ok j => j
  | Except.error (PyExn.openAIError _) =>
    errDict ("OpenAI API error. Please try again later.".data)
  | Except.error e => errDict (PyExn.msg e)

/-- `analyze_spending` (src/services/finance_ai.py 66-100) renders the
prompt (pure string formatting, elided) and delegates to `call_openai`. -/
def analyze_spending (o : GenOutcome) : Json := call_openai o

/-- `generate_longterm_goals` (src/services/finance_ai.py 102-124):
prompt rendering plus `call_openai`. -/
def generate_longterm_goals (o : GenOutcome) : Json := call_openai o

/-- `generate_shortterm_goals` (src/services/finance_ai.py 126-148):
prompt rendering plus `call_openai`. -/
def generate_shortterm_goals (o : GenOutcome) : Json := call_openai o

/-! ## The habit result normalizers (src/services/finance_ai.py 230-238 and 350-358) -/

/-- The fixed key list iterated by `identify_good_habits`. -/
def goodKeys : List (List Char) :=
  [("positiveSpendingOpportunities".data), ("growthAreas".data)]

/-- The fixed key list iterated by `identify_bad_habits`. -/
def badKeys : List (List Char) :=
  [("highImpactReductions".data), ("debtOptimizations".data),
   ("lifestyleAdjustments".data), ("smartSubstitutions".data)]

/-- Inner loop of the good-habits normalizer: for each `(sub_key, items)`
of the sub-dictionary in order, `extend(items[:1])` when `items` is a list. -/
def firstsOfSubLists : List (List Char × Json) → List Json
  | [] => []
  | (_, Json.arr items) :: rest => items.take 1 ++ firstsOfSubLists rest
  | _ :: rest => firstsOfSubLists rest

/-- Outer loop of the good-habits normalizer (src/services/finance_ai.py
231-236): for each declared key present in the parsed response, iterate
`parsed_response[key].items()` (an `AttributeError` if the value is not a
dict) collecting the first element of each sub-list. -/
def goodLoop (parsed : Json) : List (List Char) → Except PyExn (List Json)
  | [] => Except.ok []
  | k :: ks => do
    let mem ← pyIn k parsed
    if mem then do
      let v ← pyGetItemStr parsed k
      match v with
      | Json.obj kvs => do
        let rest ← goodLoop parsed ks
        Except.ok (firstsOfSubLists kvs ++ rest)
      | _ => Except.error (PyExn.attributeError ("object has no attribute items".data))
    else goodLoop parsed ks

/-- The good-habits result normalizer (src/services/finance_ai.py 230-238):
collect first elements per sub-list, then `extracted_list[:4]`.  There is
no empty-result fallback in `identify_good_habits`. -/
def goodHabitsNormalize (parsed : Json) : Except PyExn (List Json) :=
  (goodLoop parsed goodKeys).map (fun l => l.take 4)

/-- Loop of the bad-habits normalizer (src/services/finance_ai.py 351-356):
each declared key maps directly to a list; `extend(items[:1])` when the
value is a non-empty list. -/
def badLoop (parsed : Json) : List (List Char) → Except PyExn (List Json)
  | [] => Except.ok []
  | k :: ks => do
    let mem ← pyIn k parsed
    if mem then do
      let items ← pyGetItemStr parsed k
      let rest ← badLoop parsed ks
      match items with
      | Json.arr (x :: xs) => Except.ok (List.take 1 (x :: xs) ++ rest)
      | _ => Except.ok rest
    else badLoop parsed ks

/-- The bad-habits result normalizer (src/services/finance_ai.py 350-358):
`extracted_list[:4] if extracted_list else [{"error": "No negative habits
identified."}]`. -/
def badHabitsNormalize (parsed : Json) : Except PyExn (List Json) :=
  (badLoop parsed badKeys).map
    (fun l => if l.isEmpty then (errDict ("No negative habits identified.".data)) :: [] else l.take 4)

/-- The `try:` body of `identify_good_habits` after the service returned
`response` (src/services/finance_ai.py 217-238): the raw access chain (note:
no emptiness guard on `choices` here), the empty-text guard, `extract_json`
(whose `ValueError` propagates to the handlers), the error-key guard, and
the normalizer. -/
def identify_good_habits_body (response : Json) : Except PyExn (List Json) := do
  let ch ← pyGetItemStr response ("choices".data)
  let c0 ← pyGetItemNat ch 0
  let m ← pyGetItemStr c0 ("message".data)
  let content ← pyGetItemStr m ("content".data)
  let s ← asStr content
  let response_text := pyStrip s
  if response_text.isEmpty then
    Except.error (PyExn.valueError ("OpenAI API returned an empty response".data))
  else do
    let parsed ← extract_json response_text
    let hasErr ← pyIn ("error".data) parsed
    if hasErr then
      Except.error (PyExn.valueError ("OpenAI JSON extraction failed".data))
    else goodHabitsNormalize parsed

/-- Exception-to-result handlers shared by `identify_good_habits` and
`identify_bad_habits` (their `except` clauses are identical up to one
message): `OpenAIError`, then `json.JSONDecodeError`, then `Exception`. -/
def habitHandlers (r : Except PyExn (List Json)) : List Json :=
  match r with
  | Except.ok l => l
  | Except.error (PyExn.openAIError _) =>
    (errDict ("OpenAI API error. Please try again later.".data)) :: []
  | Except.error (PyExn.jsonDecodeError _) =>
    (errDict ("Invalid JSON format from OpenAI".data)) :: []
  | Except.error e => (errDict (PyExn.msg e)) :: []

/-- `identify_good_habits` (src/services/finance_ai.py 150-248): its own
service call, extraction and normalization, with catch-all handlers — the
function never raises. -/
def identify_good_habits (o : GenOutcome) : List Json :=
  habitHandlers
    (match o with
     | GenOutcome.raises e => Except.error e
     | GenOutcome.returns r => identify_good_habits_body r)

/-- The `try:` body of `identify_bad_habits` after the service returned
`response` (src/services/finance_ai.py 337-358). -/
def identify_bad_habits_body (response : Json) : Except PyExn (List Json) := do
  let ch ← pyGetItemStr response ("choices".data)
  let c0 ← pyGetItemNat ch 0
  let m ← pyGetItemStr c0 ("message".data)
  let content ← pyGetItemStr m ("content".data)
  let s ← asStr content
  let response_text := pyStrip s
  if response_text.isEmpty then
    Except.error (PyExn.valueError ("OpenAI API returned an empty response".data))
  else do
    let parsed ← extract_json response_text
    let hasErr ← pyIn ("error".data) parsed
    if hasErr then
      Except.error (PyExn.valueError ("OpenAI JSON extraction failed".data))
    else badHabitsNormalize parsed

/-- `identify_bad_habits` (src/services/finance_ai.py 259-368). -/
def identify_bad_habits (o : GenOutcome) : List Json :=
  habitHandlers
    (match o with
     | GenOutcome.raises e => Except.error e
     | GenOutcome.returns r => identify_bad_habits_body r)

/-! ## Persistence model

A stored document is an ordered association list (Mongo documents have
unique keys).  Endpoints return the ordered trace of the persistence
operations they issue, so that "no persistence call is attempted" is the
trace being empty. -/

/-- A MongoDB document. -/
def Doc : Type := List (List Char × Json)

/-- Persistence operations issued by the routes. -/
inductive DbOp where
  | findOne (filter : Json) : DbOp
  | updateSet (filter : Json) (fields : List (List Char × Json)) : DbOp
  | replaceDoc (filter : Json) (doc : Json) : DbOp
  | deleteOne (filter : Json) : DbOp

/-- Mongo `$set` of a single field: replace the field if present, append it
otherwise. -/
def setField : Doc → List Char → Json → Doc
  | [], k, v => (k, v) :: []
  | (k0, v0) :: rest, k, v =>
    if k0 = k then (k0, v) :: rest else (k0, v0) :: setField rest k v

/-- Mongo `update_one(filter, {"$set": fields})` applied to a document. -/
def applySet (doc : Doc) (fields : List (List Char × Json)) : Doc :=
  fields.foldl (fun d p => setField d p.1 p.2) doc

/-- Python `user.get(k, dflt)` on a document. -/
def docGet (user : Doc) (k : List Char) (dflt : Json) : Json :=
  match List.lookup k user with
  | some v => v
  | none => dflt

/-- Outcome of a FastAPI route: a JSON body, or an `HTTPException` with a
status code and detail message. -/
inductive HTTPResult where
  | ok (body : Json) : HTTPResult
  | httpError (status : Nat) (detail : List Char) : HTTPResult

/-- `true` on the success constructor. -/
def HTTPResult.isOk : HTTPResult → Bool
  | HTTPResult.ok _ => true
  | HTTPResult.httpError _ _ => false

/-- Hexadecimal characters accepted by `bytes.fromhex`. -/
def isHexChar (c : Char) : Bool :=
  c.isDigit || ('a' ≤ c && c ≤ 'f') || ('A' ≤ c && c ≤ 'F')

/-- Model of `bson.ObjectId.is_valid` on a string: exactly 24 hexadecimal
characters. -/
def isValidObjectId (s : List Char) : Bool :=
  s.length == 24 && s.all isHexChar

/-! ## The analysis orchestrator (`analyze_and_update_user`, src/routes/user_data.py 32-102)

Each of the five stage calls is a parameter of type `Except PyExn _`:
`Except.ok v` models the awaited call returning `v`, `Except.error e`
models it raising `e` (caught by the per-stage `except` which substitutes
the prior stored value).  The two goal stages receive the resolved
`spend_analysis` value, mirroring `generate_longterm_goals(spend_analysis)`.
The service-level stage functions above (`analyze_spending`,
`identify_good_habits`, ...) never raise, so runs of the real pipeline
instantiate these parameters with `Except.ok` of their results. -/

/-- The five derived-field keys, in the order of the `update_data` literal. -/
def derivedKeys : List (List Char) :=
  [("spend_analysis".data), ("longterm".data), ("shortterm".data),
   ("good_habits".data), ("bad_habits".data)]

/-- The `update_data` merge literal (src/routes/user_data.py 80-86): per
field, `this_run_value or user.get(field, default)` with Python `or`. -/
def mergeUpdateData (user : Doc) (spend_analysis longterm shortterm good_habits bad_habits : Json) :
    List (List Char × Json) :=
  [(("spend_analysis".data),
    if spend_analysis.truthy then spend_analysis
    else docGet user ("spend_analysis".data) (Json.obj [])),
   (("longterm".data),
    if longterm.truthy then longterm else docGet user ("longterm".data) (Json.obj [])),
   (("shortterm".data),
    if shortterm.truthy then shortterm else docGet user ("shortterm".data) (Json.obj [])),
   (("good_habits".data),
    if good_habits.truthy then good_habits else docGet user ("good_habits".data) (Json.arr [])),
   (("bad_habits".data),
    if bad_habits.truthy then bad_habits else docGet user ("bad_habits".data) (Json.arr []))]

/-- Result of one orchestrator run: the merged `update_data`, the issued
persistence operations, and the HTTP response body. -/
structure PipelineResult where
  update_data : List (List Char × Json)
  ops : List DbOp
  response : Json

/-- `analyze_and_update_user` (src/routes/user_data.py 32-102): resolve the
five stages with per-stage fallback to the prior stored value, merge via
`mergeUpdateData`, issue the `$set` partial update followed by the re-read
(the re-read is modelled by `applySet` on the input snapshot), and build
the `{message, email, data}` response. -/
def analyze_and_update_user (user : Doc)
    (spendCall : Except PyExn Json)
    (longCall shortCall : Json → Except PyExn Json)
    (goodCall badCall : Except PyExn (List Json)) : PipelineResult :=
  let spend_analysis :=
    match spendCall with
    | Except.ok v => v
    | Except.error _ => docGet user ("spend_analysis".data) (Json.obj [])
  let longterm :=
    match longCall spend_analysis with
    | Except.ok v => v
    | Except.error _ => docGet user ("longterm".data) (Json.obj [])
  let shortterm :=
    match shortCall spend_analysis with
    | Except.ok v => v
    | Except.error _ => docGet user ("shortterm".data) (Json.obj [])
  let good_habits :=
    match goodCall with
    | Except.ok v => Json.arr v
    | Except.error _ => docGet user ("good_habits".data) (Json.arr [])
  let bad_habits :=
    match badCall with
    | Except.ok v => Json.arr v
    | Except.error _ => docGet user ("bad_habits".data) (Json.arr [])
  let update_data := mergeUpdateData user spend_analysis longterm shortterm good_habits bad_habits
  let uid := docGet user ("_id".data) Json.null
  let updated := applySet user update_data
  { update_data := update_data
    ops := (DbOp.updateSet uid update_data) :: (DbOp.findOne uid) :: []
    response := Json.obj
      [(("message".data), Json.str ("Analysis completed and updated".data)),
       (("email".data), docGet updated ("email".data) Json.null),
       (("data".data), Json.obj updated)] }

/-! ## Routes -/

/-- `verify_and_run_analysis` (src/routes/user_data.py 104-130): validate
the identifier, fetch the user (`findResult` is the store's answer), check
the email field, then run the orchestrator. -/
def verify_and_run_analysis (user_id : List Char) (findResult : Option Doc)
    (spendCall : Except PyExn Json)
    (longCall shortCall : Json → Except PyExn Json)
    (goodCall badCall : Except PyExn (List Json)) : HTTPResult × List DbOp :=
  if !isValidObjectId user_id then
    (HTTPResult.httpError 400 ("Invalid ObjectID format".data), [])
  else
    match findResult with
    | none => (HTTPResult.httpError 404 ("User not found".data),
               (DbOp.findOne (Json.str user_id)) :: [])
    | some user =>
      let email := docGet user ("email".data) Json.null
      if !email.truthy then
        (HTTPResult.httpError 404 ("User email not found".data),
         (DbOp.findOne (Json.str user_id)) :: [])
      else
        let r := analyze_and_update_user user spendCall longCall shortCall goodCall badCall
        (HTTPResult.ok r.response, (DbOp.findOne (Json.str user_id)) :: r.ops)

/-- `delete_user` (src/routes/user_data.py 132-147): validate the
identifier, issue the delete (`deletedCount` is the store's answer). -/
def delete_user (user_id : List Char) (deletedCount : Nat) : HTTPResult × List DbOp :=
  if !isValidObjectId user_id then
    (HTTPResult.httpError 400 ("Invalid ObjectID format".data), [])
  else if deletedCount == 0 then
    (HTTPResult.httpError 404 ("User not found".data), (DbOp.deleteOne (Json.str user_id)) :: [])
  else
    (HTTPResult.ok (Json.obj [(("message".data), Json.str ("User deleted successfully".data))]),
     (DbOp.deleteOne (Json.str user_id)) :: [])

/-- `analyze_user_finances` (src/routes/analysis.py 9-40): validate the
identifier, fetch the user, check the financial data, then run the single
spending-rating stage inside `try`/`except HTTPException(500)`.  The `try`
body is `Except.ok` of `analyze_spending` because `call_openai` catches
every exception itself (prompt rendering is pure). -/
def analyze_user_finances (user_id : List Char) (findResult : Option Doc)
    (o : GenOutcome) : HTTPResult × List DbOp :=
  if !isValidObjectId user_id then
    (HTTPResult.httpError 400 ("Invalid ObjectID format".data), [])
  else
    match findResult with
    | none => (HTTPResult.httpError 404 ("User not found".data),
               (DbOp.findOne (Json.str user_id)) :: [])
    | some user =>
      let financial := docGet user ("financial".data) (Json.obj [])
      if !financial.truthy then
        (HTTPResult.httpError 400 ("No financial data found for the user".data),
         (DbOp.findOne (Json.str user_id)) :: [])
      else
        match (Except.ok (analyze_spending o) : Except PyExn Json) with
        | Except.ok analysis_result =>
          (HTTPResult.ok (Json.obj
             [(("user_id".data), Json.str user_id),
              (("analysis".data), analysis_result)]),
           (DbOp.findOne (Json.str user_id)) :: [])
        | Except.error e =>
          (HTTPResult.httpError 500 (("Error analyzing financial data: ".data) ++ PyExn.msg e),
           (DbOp.findOne (Json.str user_id)) :: [])

/-- Modelled from the spec's merge rule (§4.5 step 4): per field, "this
run's value if it is truthy/non-empty, else the prior stored value". -/
def specMergeField (run prior : Json) : Json := if run.truthy then run else prior

/-! ## Toolkit lemmas about spans and trimming -/

theorem dropWhile_head?_false {p : Char → Bool} :
    ∀ (l : List Char) (a : Char), (l.dropWhile p).head? = some a → p a = false := by
  intro l
  induction l with
  | nil => intro a h; simp [List.dropWhile] at h
  | cons b t ih =>
    intro a h
    by_cases hb : p b = true
    · rw [List.dropWhile_cons_of_pos hb] at h
      exact ih a h
    · rw [List.dropWhile_cons_of_neg hb] at h
      simp only [List.head?_cons, Option.some.injEq] at h
      subst h
      simpa using hb

theorem head?_append_left {l v : List Char} (h : l ≠ []) : (l ++ v).head? = l.head? := by
  cases l with
  | nil => exact absurd rfl h
  | cons a t => rfl

theorem trimTail_decomp (p : Char → Bool) (l : List Char) :
    ∃ v, l = trimTail p l ++ v ∧ ∀ c ∈ v, p c = true := by
  have h := List.takeWhile_append_dropWhile (p := p) (l := l.reverse)
  have h2 := congrArg List.reverse h
  rw [List.reverse_append, List.reverse_reverse] at h2
  refine ⟨(l.reverse.takeWhile p).reverse, h2.symm, ?_⟩
  intro c hc
  rw [List.mem_reverse] at hc
  exact List.mem_takeWhile_imp hc

theorem trimTail_append_all {p : Char → Bool} (x post : List Char)
    (h : ∀ c ∈ post, p c = true) : trimTail p (x ++ post) = trimTail p x := by
  unfold trimTail
  rw [List.reverse_append,
      List.dropWhile_append_of_pos (fun a ha => h a (List.mem_reverse.mp ha))]

theorem trimTail_of_getLast (p : Char → Bool) (l : List Char) (a : Char)
    (hl : l.getLast? = some a) (hp : p a = false) : trimTail p l = l := by
  rw [← List.head?_reverse] at hl
  unfold trimTail
  cases hrev : l.reverse with
  | nil => rw [hrev] at hl; simp at hl
  | cons b w =>
    rw [hrev] at hl
    simp only [List.head?_cons, Option.some.injEq] at hl
    subst hl
    rw [List.dropWhile_cons_of_neg (by simp [hp]), ← hrev, List.reverse_reverse]

theorem trimTail_reverse (p : Char → Bool) (l : List Char) :
    (trimTail p l).reverse = l.reverse.dropWhile p := by
  unfold trimTail
  rw [List.reverse_reverse]

theorem trimTail_getLast?_false {p : Char → Bool} {l sp : List Char}
    (hsp : trimTail p l = sp) (hne : sp ≠ []) :
    ∃ a, sp.getLast? = some a ∧ p a = false := by
  have h1 : sp.reverse = l.reverse.dropWhile p := by rw [← hsp, trimTail_reverse]
  cases hh : sp.reverse.head? with
  | none =>
    cases hsp2 : sp.reverse with
    | nil => exact absurd (List.reverse_eq_nil_iff.mp hsp2) hne
    | cons b w => rw [hsp2] at hh; simp at hh
  | some a =>
    refine ⟨a, ?_, dropWhile_head?_false l.reverse a (h1 ▸ hh)⟩
    rw [← List.head?_reverse, hh]

theorem cons_getLast_decomp : ∀ (l : List Char) (a b : Char), l.head? = some a →
    l.getLast? = some b → 2 ≤ l.length → ∃ mid, l = a :: (mid ++ (b :: [])) := by
  intro l a b hh hl hlen
  cases l with
  | nil => simp at hh
  | cons c t =>
    simp only [List.head?_cons, Option.some.injEq] at hh
    subst hh
    have ht : t ≠ [] := by
      intro h
      subst h
      simp at hlen
    have hl2 : t.getLast? = some b := by
      cases t with
      | nil => exact absurd rfl ht
      | cons d u => rwa [List.getLast?_cons_cons] at hl
    refine ⟨t.dropLast, ?_⟩
    rw [List.dropLast_append_getLast? b hl2]

theorem extractSpan_of_decomp (pre t post : List Char)
    (hpre : ∀ c ∈ pre, c ≠ '\x7b') (hpost : ∀ c ∈ post, c ≠ '\x7d')
    (hh : t.head? = some '\x7b') (hl : t.getLast? = some '\x7d') :
    extractSpan (pre ++ t ++ post) = some t := by
  cases t with
  | nil => simp at hh
  | cons c t' =>
    simp only [List.head?_cons, Option.some.injEq] at hh
    subst hh
    have ht' : t' ≠ [] := by
      intro h
      subst h
      simp at hl
    have hdrop :
        (pre ++ '\x7b' :: t' ++ post).dropWhile (fun c => c != '\x7b')
          = '\x7b' :: (t' ++ post) := by
      rw [List.append_assoc, List.dropWhile_append_of_pos
            (fun a ha => bne_iff_ne.mpr (hpre a ha)),
          List.cons_append, List.dropWhile_cons_of_neg (by simp)]
    have htrim :
        trimTail (fun c => c != '\x7d') ('\x7b' :: (t' ++ post))
          = '\x7b' :: t' := by
      rw [← List.cons_append,
          trimTail_append_all _ _ (fun a ha => bne_iff_ne.mpr (hpost a ha)),
          trimTail_of_getLast _ _ '\x7d' hl (by simp)]
    show extractSpan (pre ++ '\x7b' :: t' ++ post) = some ('\x7b' :: t')
    unfold extractSpan
    rw [hdrop, htrim]
    have h2 : 2 ≤ ('\x7b' :: t').length := by
      have := List.length_pos.mpr ht'
      simp only [List.length_cons]
      omega
    rw [if_pos h2]

theorem extractSpan_inv {cs sp : List Char} (h : extractSpan cs = some sp) :
    trimTail (fun c => c != '\x7d') (cs.dropWhile (fun c => c != '\x7b')) = sp
      ∧ 2 ≤ sp.length := by
  unfold extractSpan at h
  by_cases hlen :
      2 ≤ (trimTail (fun c => c != '\x7d') (cs.dropWhile (fun c => c != '\x7b'))).length
  · rw [if_pos hlen] at h
    have hsp := Option.some.inj h
    exact ⟨hsp, hsp ▸ hlen⟩
  · rw [if_neg hlen] at h
    exact absurd h (by simp)

theorem extractSpan_head {cs sp : List Char} (h : extractSpan cs = some sp) :
    sp.head? = some '\x7b' ∧ sp ≠ [] := by
  obtain ⟨hsp, hlen⟩ := extractSpan_inv h
  have hne : sp ≠ [] := by
    intro hnil
    rw [hnil] at hlen
    simp at hlen
  obtain ⟨v, hdec, -⟩ := trimTail_decomp (fun c => c != '\x7d')
    (cs.dropWhile (fun c => c != '\x7b'))
  rw [hsp] at hdec
  have hhd : (cs.dropWhile (fun c => c != '\x7b')).head? = sp.head? := by
    rw [hdec, head?_append_left hne]
  cases hs : sp.head? with
  | none =>
    cases sp with
    | nil => exact absurd rfl hne
    | cons a t => simp at hs
  | some a =>
    have ha := dropWhile_head?_false cs a (hhd.trans hs)
    rw [bne_eq_false_iff_eq] at ha
    subst ha
    exact ⟨rfl, hne⟩

theorem extractSpan_some_decomp {cs sp : List Char} (h : extractSpan cs = some sp) :
    ∃ u mid v, cs = u ++ ('\x7b' :: (mid ++ '\x7d' :: v)) := by
  obtain ⟨hhd, hne⟩ := extractSpan_head h
  obtain ⟨hsp, hlen2⟩ := extractSpan_inv h
  have hlast : sp.getLast? = some '\x7d' := by
    obtain ⟨a, hga, hpa⟩ := trimTail_getLast?_false hsp hne
    rw [bne_eq_false_iff_eq] at hpa
    rw [hga, hpa]
  obtain ⟨mid, hmid⟩ := cons_getLast_decomp sp '\x7b' '\x7d' hhd hlast hlen2
  obtain ⟨v, hdec, -⟩ := trimTail_decomp (fun c => c != '\x7d')
    (cs.dropWhile (fun c => c != '\x7b'))
  rw [hsp] at hdec
  refine ⟨cs.takeWhile (fun c => c != '\x7b'), mid, v, ?_⟩
  conv_lhs => rw [← List.takeWhile_append_dropWhile (p := fun c => c != '\x7b') (l := cs)]
  rw [hdec, hmid]
  simp

theorem extractSpan_none_of_no_pair {cs : List Char}
    (h : ¬ ∃ u mid v, cs = u ++ ('\x7b' :: (mid ++ '\x7d' :: v))) :
    extractSpan cs = none := by
  cases hs : extractSpan cs with
  | none => rfl
  | some sp => exact absurd (extractSpan_some_decomp hs) h

/-! ## Parser result-shape lemmas -/

theorem skipWs_not_ws {c : Char} {t : List Char} (h : isWsChar c = false) :
    skipWs (c :: t) = c :: t := by
  unfold skipWs
  rw [h]
  simp

theorem parseF_val_brace_obj {f : Nat} {cs t r : List Char} {j : Json}
    (h : parseF (f + 1) PMode.val cs = some (j, r))
    (h2 : skipWs cs = '\x7b' :: t) : ∃ kvs, j = Json.obj kvs := by
  rw [parseF, h2] at h
  simp only [reduceIte] at h
  split at h
  · rename_i r1 heq
    simp only [Option.some.injEq, Prod.mk.injEq] at h
    exact ⟨[], h.1.symm⟩
  · split at h
    · rename_i ms r3 heq2
      simp only [Option.some.injEq, Prod.mk.injEq] at h
      exact ⟨ms, h.1.symm⟩
    · exact absurd h (by simp)

theorem loads_ok_obj {cs : List Char} {j : Json} (h : loads cs = Except.ok j)
    (hh : cs.head? = some '\x7b') : ∃ kvs, j = Json.obj kvs := by
  cases cs with
  | nil => simp at hh
  | cons c cs' =>
    simp only [List.head?_cons, Option.some.injEq] at hh
    subst hh
    unfold loads at h
    split at h
    · rename_i j2 rest heq
      split at h
      · exact Except.ok.inj h ▸ parseF_val_brace_obj heq (skipWs_not_ws (by decide))
      · exact absurd h (by simp)
    · exact absurd h (by simp)

theorem extract_json_ok_obj {t : List Char} {j : Json}
    (h : extract_json t = Except.ok j) : ∃ kvs, j = Json.obj kvs := by
  unfold extract_json at h
  split at h
  · rename_i sp hs
    obtain ⟨hhd, -⟩ := extractSpan_head hs
    split at h
    · rename_i j2 hl
      exact Except.ok.inj h ▸ loads_ok_obj hl hhd
    · exact ⟨[(("error".data), Json.str ("Invalid JSON format from OpenAI".data))],
        (Except.ok.inj h).symm⟩
  · exact absurd h (by simp)

theorem call_openai_body_ok {r j : Json} (h : call_openai_body r = Except.ok j) :
    ∃ t, extract_json t = Except.ok j := by
  unfold call_openai_body at h
  simp only [Bind.bind, Except.bind, pure, Except.pure] at h
  repeat
    first
      | exact ⟨_, h⟩
      | exact Except.noConfusion h
      | split at h

/-! ## Normalizer equivalence layer -/

/-- Modelled from the spec's normalizer algorithm (§4.4), for one top-level
key: the first element of each non-empty sub-list found under the key (for
the good-habits shape the key holds a dictionary of sub-lists; for the
bad-habits shape the key holds the list itself). -/
def specKeyFirsts (parsed : Json) (k : List Char) : List Json :=
  match parsed with
  | Json.obj kvs =>
    (match List.lookup k kvs with
     | some (Json.obj subs) =>
       (subs.map (fun p =>
          match p.2 with
          | Json.arr (x :: _) => (x :: [])
          | _ => ([] : List Json))).flatten
     | some (Json.arr (x :: _)) => (x :: [])
     | _ => [])
  | _ => []

/-- Modelled from the spec's normalizer algorithm (§4.4): accumulate the
selected first elements over the declared keys in order. -/
def specHabitSelection (parsed : Json) (keys : List (List Char)) : List Json :=
  (keys.map (specKeyFirsts parsed)).flatten

theorem specHabitSelection_cons (parsed : Json) (k : List Char) (ks : List (List Char)) :
    specHabitSelection parsed (k :: ks)
      = specKeyFirsts parsed k ++ specHabitSelection parsed ks := by
  simp [specHabitSelection]

theorem firstsOfSubLists_eq (subs : List (List Char × Json)) :
    firstsOfSubLists subs
      = (subs.map (fun p =>
          match p.2 with
          | Json.arr (x :: _) => (x :: [])
          | _ => ([] : List Json))).flatten := by
  induction subs with
  | nil => rfl
  | cons p t ih =>
    obtain ⟨a, b⟩ := p
    cases b with
    | arr xs => cases xs <;> simp [firstsOfSubLists, ih]
    | null => simp [firstsOfSubLists, ih]
    | bool x => simp [firstsOfSubLists, ih]
    | num x => simp [firstsOfSubLists, ih]
    | str x => simp [firstsOfSubLists, ih]
    | obj x => simp [firstsOfSubLists, ih]

theorem any_key_lookup (k : List Char) (kvs : List (List Char × Json)) :
    kvs.any (fun p => p.1 == k) = (List.lookup k kvs).isSome := by
  induction kvs with
  | nil => simp [List.lookup]
  | cons p t ih =>
    obtain ⟨a, b⟩ := p
    by_cases hk : k = a
    · subst hk
      simp [List.lookup]
    · have h1 : (a == k) = false := by
        simp [Ne.symm hk]
      have h2 : (k == a) = false := by
        simp [hk]
      simp [List.lookup, h1, h2, ih]

theorem goodLoop_obj (kvs : List (List Char × Json)) (keys : List (List Char))
    (hshape : ∀ k ∈ keys, ∀ v, List.lookup k kvs = some v → ∃ subs, v = Json.obj subs) :
    goodLoop (Json.obj kvs) keys
      = Except.ok (specHabitSelection (Json.obj kvs) keys) := by
  induction keys with
  | nil => rfl
  | cons k ks ih =>
    have ihk := ih (fun k' hk' => hshape k' (List.mem_cons_of_mem k hk'))
    rw [goodLoop]
    simp only [pyIn, Bind.bind, Except.bind, any_key_lookup]
    rw [specHabitSelection_cons]
    cases hlk : List.lookup k kvs with
    | none =>
      simp only [hlk, Option.isSome_none, Bool.false_eq_true, reduceIte, ihk]
      rw [specKeyFirsts]
      rw [hlk]
      rfl
    | some v =>
      obtain ⟨subs, rfl⟩ := hshape k (List.mem_cons_self k ks) v hlk
      simp only [hlk, Option.isSome_some, reduceIte, pyGetItemStr]
      rw [specKeyFirsts]
      rw [hlk, ihk]
      simp [firstsOfSubLists_eq]

theorem badLoop_obj (kvs : List (List Char × Json)) (keys : List (List Char))
    (hshape : ∀ k ∈ keys, ∀ v, List.lookup k kvs = some v → ∃ l, v = Json.arr l) :
    badLoop (Json.obj kvs) keys
      = Except.ok (specHabitSelection (Json.obj kvs) keys) := by
  induction keys with
  | nil => rfl
  | cons k ks ih =>
    have ihk := ih (fun k' hk' => hshape k' (List.mem_cons_of_mem k hk'))
    rw [badLoop]
    simp only [pyIn, Bind.bind, Except.bind, any_key_lookup]
    rw [specHabitSelection_cons]
    cases hlk : List.lookup k kvs with
    | none =>
      simp only [hlk, Option.isSome_none, Bool.false_eq_true, reduceIte, ihk]
      rw [specKeyFirsts]
      rw [hlk]
      rfl
    | some v =>
      obtain ⟨l, rfl⟩ := hshape k (List.mem_cons_self k ks) v hlk
      simp only [hlk, Option.isSome_some, reduceIte, pyGetItemStr]
      rw [specKeyFirsts]
      rw [hlk, ihk]
      cases l <;> simp

/-- Shape guard for the good-habits template: each declared key, when
present, holds a dictionary. -/
def goodShape (kvs : List (List Char × Json)) : Bool :=
  goodKeys.all (fun k =>
    match List.lookup k kvs with
    | some (Json.obj _) => true
    | some _ => false
    | none => true)

/-- Shape guard for the bad-habits template: each declared key, when
present, holds a list. -/
def badShape (kvs : List (List Char × Json)) : Bool :=
  badKeys.all (fun k =>
    match List.lookup k kvs with
    | some (Json.arr _) => true
    | some _ => false
    | none => true)

theorem goodShape_spec {kvs : List (List Char × Json)} (h : goodShape kvs = true) :
    ∀ k ∈ goodKeys, ∀ v, List.lookup k kvs = some v → ∃ subs, v = Json.obj subs := by
  intro k hk v hv
  have hh := List.all_eq_true.mp h k hk
  rw [hv] at hh
  cases v with
  | obj subs => exact ⟨subs, rfl⟩
  | null => exact Bool.noConfusion hh
  | bool x => exact Bool.noConfusion hh
  | num x => exact Bool.noConfusion hh
  | str x => exact Bool.noConfusion hh
  | arr x => exact Bool.noConfusion hh

theorem badShape_spec {kvs : List (List Char × Json)} (h : badShape kvs = true) :
    ∀ k ∈ badKeys, ∀ v, List.lookup k kvs = some v → ∃ l, v = Json.arr l := by
  intro k hk v hv
  have hh := List.all_eq_true.mp h k hk
  rw [hv] at hh
  cases v with
  | arr l => exact ⟨l, rfl⟩
  | null => exact Bool.noConfusion hh
  | bool x => exact Bool.noConfusion hh
  | num x => exact Bool.noConfusion hh
  | str x => exact Bool.noConfusion hh
  | obj x => exact Bool.noConfusion hh

/-- Shape guard: each declared good-habits key, when present, holds a
dictionary all of whose list-valued entries are empty lists. -/
def goodAllEmpty (kvs : List (List Char × Json)) : Bool :=
  goodKeys.all (fun k =>
    match List.lookup k kvs with
    | some (Json.obj subs) =>
      subs.all (fun p =>
        match p.2 with
        | Json.arr [] => true
        | Json.arr (_ :: _) => false
        | _ => true)
    | some _ => false
    | none => true)

/-- Shape guard: each declared bad-habits key, when present, holds the
empty list. -/
def badAllEmpty (kvs : List (List Char × Json)) : Bool :=
  badKeys.all (fun k =>
    match List.lookup k kvs with
    | some (Json.arr []) => true
    | some _ => false
    | none => true)

theorem goodAllEmpty_shape {kvs : List (List Char × Json)} (h : goodAllEmpty kvs = true) :
    ∀ k ∈ goodKeys, ∀ v, List.lookup k kvs = some v → ∃ subs, v = Json.obj subs := by
  intro k hk v hv
  have hh := List.all_eq_true.mp h k hk
  rw [hv] at hh
  cases v with
  | obj subs => exact ⟨subs, rfl⟩
  | null => exact Bool.noConfusion hh
  | bool x => exact Bool.noConfusion hh
  | num x => exact Bool.noConfusion hh
  | str x => exact Bool.noConfusion hh
  | arr x => exact Bool.noConfusion hh

theorem goodAllEmpty_firsts {kvs : List (List Char × Json)} (h : goodAllEmpty kvs = true) :
    ∀ k ∈ goodKeys, specKeyFirsts (Json.obj kvs) k = [] := by
  intro k hk
  have hh := List.all_eq_true.mp h k hk
  rw [specKeyFirsts]
  cases hlk : List.lookup k kvs with
  | none => rfl
  | some v =>
    rw [hlk] at hh
    cases v with
    | obj subs =>
      apply List.flatten_eq_nil_iff.mpr
      intro l hl
      obtain ⟨p, hp, rfl⟩ := List.mem_map.mp hl
      have hpe := List.all_eq_true.mp hh p hp
      cases hp2 : p.2 with
      | arr xs =>
        cases xs with
        | nil => rfl
        | cons x t =>
          rw [hp2] at hpe
          exact Bool.noConfusion hpe
      | null => rfl
      | bool y => rfl
      | num y => rfl
      | str y => rfl
      | obj y => rfl
    | null => exact Bool.noConfusion hh
    | bool x => exact Bool.noConfusion hh
    | num x => exact Bool.noConfusion hh
    | str x => exact Bool.noConfusion hh
    | arr x => exact Bool.noConfusion hh

theorem badAllEmpty_shape {kvs : List (List Char × Json)} (h : badAllEmpty kvs = true) :
    ∀ k ∈ badKeys, ∀ v, List.lookup k kvs = some v → ∃ l, v = Json.arr l := by
  intro k hk v hv
  have hh := List.all_eq_true.mp h k hk
  rw [hv] at hh
  cases v with
  | arr l => exact ⟨l, rfl⟩
  | null => exact Bool.noConfusion hh
  | bool x => exact Bool.noConfusion hh
  | num x => exact Bool.noConfusion hh
  | str x => exact Bool.noConfusion hh
  | obj x => exact Bool.noConfusion hh

theorem badAllEmpty_firsts {kvs : List (List Char × Json)} (h : badAllEmpty kvs = true) :
    ∀ k ∈ badKeys, specKeyFirsts (Json.obj kvs) k = [] := by
  intro k hk
  have hh := List.all_eq_true.mp h k hk
  rw [specKeyFirsts]
  cases hlk : List.lookup k kvs with
  | none => rfl
  | some v =>
    rw [hlk] at hh
    cases v with
    | arr l =>
      cases l with
      | nil => rfl
      | cons x t => exact Bool.noConfusion hh
    | null => exact Bool.noConfusion hh
    | bool x => exact Bool.noConfusion hh
    | num x => exact Bool.noConfusion hh
    | str x => exact Bool.noConfusion hh
    | obj x => exact Bool.noConfusion hh

theorem specHabitSelection_nil {parsed : Json} {keys : List (List Char)}
    (h : ∀ k ∈ keys, specKeyFirsts parsed k = []) :
    specHabitSelection parsed keys = [] := by
  unfold specHabitSelection
  apply List.flatten_eq_nil_iff.mpr
  intro l hl
  obtain ⟨k, hk, rfl⟩ := List.mem_map.mp hl
  exact h k hk

/-- The all-empty good-habits object of the spec's §8 scenario. -/
def goodAllEmptyObj : List (List Char × Json) :=
  [(("positiveSpendingOpportunities".data),
     Json.obj [(("investments".data), Json.arr []),
               (("selfDevelopment".data), Json.arr [])]),
   (("growthAreas".data), Json.obj [(("skillEnhancement".data), Json.arr [])])]

/-- C4 counterexample: on the all-empty good-habits object the good-habits
normalizer returns the empty sequence — not a single-element error record
(`identify_good_habits` has no empty-result fallback; only
`identify_bad_habits` does). -/
theorem good_habits_all_empty_returns_empty_cex :
    goodHabitsNormalize (Json.obj goodAllEmptyObj) = Except.ok ([] : List Json) := rfl

/-- C4 (amended): on habit input whose declared sub-lists are all empty the
bad-habits normalizer returns the single-element explanatory error record,
never the empty sequence; the good-habits normalizer, however, returns the
empty sequence. -/
theorem all_empty_sublists_normalizer_outputs (kvs : List (List Char × Json))
    (hg : goodAllEmpty kvs = true) (hb : badAllEmpty kvs = true) :
    goodHabitsNormalize (Json.obj kvs) = Except.ok ([] : List Json)
    ∧ badHabitsNormalize (Json.obj kvs)
        = Except.ok ((errDict ("No negative habits identified.".data)) :: []) := by
  have hgsel := specHabitSelection_nil (goodAllEmpty_firsts hg)
  have hbsel := specHabitSelection_nil (badAllEmpty_firsts hb)
  constructor
  · unfold goodHabitsNormalize
    rw [goodLoop_obj kvs goodKeys (goodAllEmpty_shape hg), hgsel]
    rfl
  · unfold badHabitsNormalize
    rw [badLoop_obj kvs badKeys (badAllEmpty_shape hb), hbsel]
    rfl

theorem all_empty_sublists_normalizer_outputs_witness :
    goodHabitsNormalize (Json.obj goodAllEmptyObj) = Except.ok ([] : List Json)
    ∧ badHabitsNormalize (Json.obj goodAllEmptyObj)
        = Except.ok ((errDict ("No negative habits identified.".data)) :: []) :=
  all_empty_sublists_normalizer_outputs goodAllEmptyObj (by decide) (by decide)

/-- The all-empty bad-habits object. -/
def badAllEmptyObj : List (List Char × Json) :=
  [(("highImpactReductions".data), Json.arr []),
   (("debtOptimizations".data), Json.arr []),
   (("lifestyleAdjustments".data), Json.arr []),
   (("smartSubstitutions".data), Json.arr [])]

/-- C5 counterexample: on the all-empty bad-habits object the claimed
select-firsts-then-truncate rule predicts the empty output, but the
bad-habits normalizer returns the single-element error record instead. -/
theorem bad_habits_fallback_breaks_truncation_cex :
    specHabitSelection (Json.obj badAllEmptyObj) badKeys = []
    ∧ badHabitsNormalize (Json.obj badAllEmptyObj)
        = Except.ok ((errDict ("No negative habits identified.".data)) :: [])
    ∧ (Except.ok ((errDict ("No negative habits identified.".data)) :: [])
         : Except PyExn (List Json))
        ≠ Except.ok ((specHabitSelection (Json.obj badAllEmptyObj) badKeys).take 4) := by
  refine ⟨rfl, rfl, ?_⟩
  intro h
  exact absurd (congrArg (fun r => match r with
    | Except.ok (l : List Json) => l.length
    | Except.error _ => 0) h) (by decide)

/-- C5 (amended): on template-shaped habit objects, the normalizers take
the first element of each non-empty sub-list in encounter order (keys in
the fixed declared order; within a key, sub-keys in the order they appear
in the object) and truncate to at most 4 — except that the bad-habits
normalizer replaces an empty accumulation with the single-element error
record.  With at least 4 selected elements (e.g. 6 populated sub-lists)
the good-habits output has length exactly 4. -/
theorem normalizer_selects_firsts_and_truncates (kvs : List (List Char × Json))
    (hg : goodShape kvs = true) (hb : badShape kvs = true) :
    goodHabitsNormalize (Json.obj kvs)
      = Except.ok ((specHabitSelection (Json.obj kvs) goodKeys).take 4)
    ∧ (4 ≤ (specHabitSelection (Json.obj kvs) goodKeys).length →
        ∃ l, goodHabitsNormalize (Json.obj kvs) = Except.ok l ∧ l.length = 4)
    ∧ ((specHabitSelection (Json.obj kvs) badKeys).isEmpty = false →
        badHabitsNormalize (Json.obj kvs)
          = Except.ok ((specHabitSelection (Json.obj kvs) badKeys).take 4)) := by
  have h1 : goodHabitsNormalize (Json.obj kvs)
      = Except.ok ((specHabitSelection (Json.obj kvs) goodKeys).take 4) := by
    unfold goodHabitsNormalize
    rw [goodLoop_obj kvs goodKeys (goodShape_spec hg)]
    rfl
  refine ⟨h1, ?_, ?_⟩
  · intro hlen
    exact ⟨_, h1, by rw [List.length_take]; exact Nat.min_eq_left hlen⟩
  · intro hne
    unfold badHabitsNormalize
    rw [badLoop_obj kvs badKeys (badShape_spec hb)]
    cases hsel : specHabitSelection (Json.obj kvs) badKeys with
    | nil => rw [hsel] at hne; exact Bool.noConfusion hne
    | cons a t => rfl

/-- A habit object with six populated good sub-lists and three populated
bad lists. -/
def wHabit : List (List Char × Json) :=
  [(("positiveSpendingOpportunities".data), Json.obj
     [(("investments".data), Json.arr [Json.num 1, Json.num 11]),
      (("selfDevelopment".data), Json.arr [Json.num 2]),
      (("protectiveSpending".data), Json.arr [Json.num 3]),
      (("extra".data), Json.arr [Json.num 4])]),
   (("growthAreas".data), Json.obj
     [(("skillEnhancement".data), Json.arr [Json.num 5]),
      (("networking".data), Json.arr [Json.num 6])]),
   (("highImpactReductions".data), Json.arr [Json.num 7]),
   (("debtOptimizations".data), Json.arr []),
   (("lifestyleAdjustments".data), Json.arr [Json.num 8]),
   (("smartSubstitutions".data), Json.arr [Json.num 9])]

theorem normalizer_selects_firsts_and_truncates_witness :
    goodHabitsNormalize (Json.obj wHabit)
      = Except.ok ((specHabitSelection (Json.obj wHabit) goodKeys).take 4)
    ∧ (∃ l, goodHabitsNormalize (Json.obj wHabit) = Except.ok l ∧ l.length = 4)
    ∧ badHabitsNormalize (Json.obj wHabit)
        = Except.ok ((specHabitSelection (Json.obj wHabit) badKeys).take 4) := by
  obtain ⟨h1, h2, h3⟩ := normalizer_selects_firsts_and_truncates wHabit
    (by decide) (by decide)
  exact ⟨h1, h2 (by decide), h3 (by decide)⟩

theorem pyStrip_decomp (s : List Char) : ∃ u v, s = u ++ pyStrip s ++ v := by
  obtain ⟨v, hv, -⟩ := trimTail_decomp isPyWs (s.dropWhile isPyWs)
  refine ⟨s.takeWhile isPyWs, v, ?_⟩
  conv_lhs => rw [← List.takeWhile_append_dropWhile (p := isPyWs) (l := s)]
  rw [List.append_assoc]
  exact congrArg (s.takeWhile isPyWs ++ ·) hv

theorem no_pair_pyStrip {text : List Char}
    (hno : ¬ ∃ u mid v, text = u ++ ('\x7b' :: (mid ++ '\x7d' :: v))) :
    ¬ ∃ u mid v, pyStrip text = u ++ ('\x7b' :: (mid ++ '\x7d' :: v)) := by
  rintro ⟨u, mid, v, hdec⟩
  obtain ⟨a, b, hab⟩ := pyStrip_decomp text
  refine hno ⟨a ++ u, mid, v ++ b, ?_⟩
  rw [hab, hdec]
  simp

theorem no_pair_of_no_open {text : List Char} (h : '\x7b' ∉ text) :
    ¬ ∃ u mid v, text = u ++ ('\x7b' :: (mid ++ '\x7d' :: v)) := by
  rintro ⟨u, mid, v, rfl⟩
  exact h (by simp)

/-- A generation-service response whose first choice's message content is
`text` — the shape the source consumes field by field. -/
def contentResponse (text : List Char) : Json :=
  Json.obj [(("choices".data),
    Json.arr [Json.obj [(("message".data),
      Json.obj [(("content".data), Json.str text)])]])]

/-- C2 counterexample: the text consisting of the well-formed object
`\x7b"a": 1\x7d` followed by prose that contains a closing brace holds
exactly one well-formed JSON object, yet `extract_json` greedily spans to
the last brace, fails to parse, and returns the error record instead of the
object. -/
theorem extract_json_greedy_prose_cex :
    loads ("\x7b\"a\": 1\x7d".data) = Except.ok (Json.obj [(("a".data), Json.num 1)])
    ∧ extract_json ("\x7b\"a\": 1\x7d x \x7d".data)
        = Except.ok (errDict ("Invalid JSON format from OpenAI".data))
    ∧ extract_json ("\x7b\"a\": 1\x7d x \x7d".data)
        ≠ Except.ok (Json.obj [(("a".data), Json.num 1)]) := by
  refine ⟨rfl, rfl, ?_⟩
  intro h
  exact absurd (congrArg (fun r => match r with
    | Except.ok j => hasErrorKey j
    | Except.error _ => false) h) (by decide)

/-- C2 (amended): `extract_json` returns the embedded JSON object unchanged
whenever the prose before the object contains no opening brace and the
prose after it contains no closing brace (with arbitrary prose the greedy
`\x7b.*\x7d` span can absorb stray braces and fail). -/
theorem extract_json_returns_embedded_object (pre t post : List Char) (j : Json)
    (hl : loads t = Except.ok j) (hh : t.head? = some '\x7b')
    (hg : t.getLast? = some '\x7d')
    (hpre : ∀ c ∈ pre, c ≠ '\x7b') (hpost : ∀ c ∈ post, c ≠ '\x7d') :
    extract_json (pre ++ t ++ post) = Except.ok j := by
  have hspan := extractSpan_of_decomp pre t post hpre hpost hh hg
  unfold extract_json
  rw [hspan]
  show (match loads t with
        | Except.ok j => Except.ok j
        | Except.error _ =>
          Except.ok (errDict ("Invalid JSON format from OpenAI".data))) = Except.ok j
  rw [hl]

theorem extract_json_returns_embedded_object_witness :
    extract_json (("Sure: ".data) ++ ("\x7b\"a\": 1\x7d".data) ++ (" done".data))
      = Except.ok (Json.obj [(("a".data), Json.num 1)]) :=
  extract_json_returns_embedded_object ("Sure: ".data) ("\x7b\"a\": 1\x7d".data)
    (" done".data) (Json.obj [(("a".data), Json.num 1)]) rfl rfl rfl
    (by decide) (by decide)

/-- C3 counterexample: on text with no brace span `extract_json` does not
return an error record to its caller — it raises `ValueError` (the
`except` clause catches only `json.JSONDecodeError`). -/
theorem extract_json_no_span_raises_cex :
    extract_json ("hello".data)
      = Except.error (PyExn.valueError ("No JSON found in OpenAI response".data)) := rfl

/-- C3 (amended): on raw text with no `\x7b...\x7d` pair, `extract_json`
raises `ValueError("No JSON found in OpenAI response")`; the catch-all
`except Exception` of `call_openai` converts it into the error record
`{"error": ...}`, so `call_openai`'s caller receives an error record and no
exception escapes that level. -/
theorem extract_json_no_span_error_caught (text : List Char)
    (hno : ¬ ∃ u mid v, text = u ++ ('\x7b' :: (mid ++ '\x7d' :: v)))
    (hne : pyStrip text ≠ []) :
    extract_json text
      = Except.error (PyExn.valueError ("No JSON found in OpenAI response".data))
    ∧ call_openai (GenOutcome.returns (contentResponse text))
        = errDict ("No JSON found in OpenAI response".data) := by
  have hspan1 : extractSpan text = none := extractSpan_none_of_no_pair hno
  have hspan2 : extractSpan (pyStrip text) = none :=
    extractSpan_none_of_no_pair (no_pair_pyStrip hno)
  have hext : extract_json (pyStrip text)
      = Except.error (PyExn.valueError ("No JSON found in OpenAI response".data)) := by
    unfold extract_json
    rw [hspan2]
  constructor
  · unfold extract_json
    rw [hspan1]
  · have hbody : call_openai_body (contentResponse text)
        = (if (pyStrip text).isEmpty = true
           then Except.error (PyExn.valueError ("OpenAI API returned an empty response".data))
           else extract_json (pyStrip text)) := rfl
    have hcall : call_openai (GenOutcome.returns (contentResponse text))
        = (match call_openai_body (contentResponse text) with
           | Except.ok j => j
           | Except.error (PyExn.openAIError _) =>
             errDict ("OpenAI API error. Please try again later.".data)
           | Except.error e => errDict (PyExn.msg e)) := rfl
    rw [hcall, hbody, if_neg (by simpa using hne), hext]
    rfl

theorem extract_json_no_span_error_caught_witness :
    extract_json ("no json here".data)
      = Except.error (PyExn.valueError ("No JSON found in OpenAI response".data))
    ∧ call_openai (GenOutcome.returns (contentResponse ("no json here".data)))
        = errDict ("No JSON found in OpenAI response".data) :=
  extract_json_no_span_error_caught ("no json here".data)
    (no_pair_of_no_open (by decide)) (by decide)

/-- C10: for every behaviour of the external generation service (an
exception of any kind, or a response value of any shape — missing or empty
`choices`, empty content, non-JSON text), `call_openai` returns a
dictionary — either the JSON object extracted from the response text or a
dictionary carrying an `error` key — and, being a total function into
`Json` whose handlers cover every exception, never propagates an exception
to its caller. -/
theorem call_openai_total_returns_dict (o : GenOutcome) :
    ∃ kvs, call_openai o = Json.obj kvs ∧
      (kvs.any (fun p => p.1 == ("error".data)) = true
        ∨ ∃ t, extract_json t = Except.ok (Json.obj kvs)) := by
  cases o with
  | raises e =>
    cases e <;> exact ⟨_, rfl, Or.inl rfl⟩
  | returns r =>
    have hcall : call_openai (GenOutcome.returns r)
        = (match call_openai_body r with
           | Except.ok j => j
           | Except.error (PyExn.openAIError _) =>
             errDict ("OpenAI API error. Please try again later.".data)
           | Except.error e => errDict (PyExn.msg e)) := rfl
    cases hb : call_openai_body r with
    | ok j =>
      obtain ⟨t, ht⟩ := call_openai_body_ok hb
      obtain ⟨kvs, rfl⟩ := extract_json_ok_obj ht
      refine ⟨kvs, ?_, Or.inr ⟨t, ht⟩⟩
      rw [hcall, hb]
    | error e =>
      rw [hcall, hb]
      cases e <;> exact ⟨_, rfl, Or.inl rfl⟩

/-! ## Frame lemmas for the partial update -/

theorem lookup_setField_ne (doc : Doc) (k k' : List Char) (v : Json) (h : k' ≠ k) :
    List.lookup k' (setField doc k v) = List.lookup k' doc := by
  induction doc with
  | nil =>
    have hk : (k' == k) = false := by simp [h]
    simp [setField, List.lookup, hk]
  | cons p t ih =>
    obtain ⟨a, b⟩ := p
    by_cases hak : a = k
    · subst hak
      have hk : (k' == a) = false := by simp [h]
      simp [setField, List.lookup, hk]
    · have hne : ¬ a = k := hak
      simp only [setField, if_neg hne]
      by_cases hka : k' = a
      · subst hka
        simp [List.lookup]
      · have hk : (k' == a) = false := by simp [hka]
        simp [List.lookup, hk, ih]

theorem lookup_applySet_not_mem (fields : List (List Char × Json)) (doc : Doc)
    (k : List Char) (h : k ∉ fields.map Prod.fst) :
    List.lookup k (applySet doc fields) = List.lookup k doc := by
  induction fields generalizing doc with
  | nil => rfl
  | cons p t ih =>
    simp only [List.map_cons, List.mem_cons, not_or] at h
    have happ : applySet doc (p :: t) = applySet (setField doc p.1 p.2) t := by
      simp [applySet]
    rw [happ, ih (setField doc p.1 p.2) (by
      intro hmem
      exact h.2 hmem)]
    exact lookup_setField_ne doc p.1 k p.2 h.1

/-! ## Orchestrator claims -/

/-- C6: in the orchestrator's merge, each of the five fields takes this
run's (post-fallback) stage value when it is truthy/non-empty and the prior
stored value otherwise; an explicit error record is truthy, and a stage
that returns one therefore has it taken as this run's value for the field. -/
theorem merge_takes_truthy_run_value_else_prior (user : Doc)
    (sa lt st gh bh : Json) (m : List Char)
    (lc shc : Json → Except PyExn Json) (gc bc : Except PyExn (List Json)) :
    mergeUpdateData user sa lt st gh bh =
      [(("spend_analysis".data),
        specMergeField sa (docGet user ("spend_analysis".data) (Json.obj []))),
       (("longterm".data),
        specMergeField lt (docGet user ("longterm".data) (Json.obj []))),
       (("shortterm".data),
        specMergeField st (docGet user ("shortterm".data) (Json.obj []))),
       (("good_habits".data),
        specMergeField gh (docGet user ("good_habits".data) (Json.arr []))),
       (("bad_habits".data),
        specMergeField bh (docGet user ("bad_habits".data) (Json.arr [])))]
    ∧ (errDict m).truthy = true
    ∧ specMergeField (errDict m) (docGet user ("spend_analysis".data) (Json.obj []))
        = errDict m
    ∧ List.lookup ("spend_analysis".data)
        (analyze_and_update_user user (Except.ok (errDict m)) lc shc gc bc).update_data
        = some (errDict m) :=
  ⟨rfl, rfl, rfl, rfl⟩

/-- C7: the orchestrator's only write is a `$set` partial update whose
update document has exactly the five derived-field keys; applying a `$set`
leaves every key outside the update document unchanged, and no
whole-document replace is ever issued. -/
theorem update_is_field_scoped_set_of_five_keys (user : Doc)
    (spendCall : Except PyExn Json) (longCall shortCall : Json → Except PyExn Json)
    (goodCall badCall : Except PyExn (List Json)) :
    (analyze_and_update_user user spendCall longCall shortCall goodCall badCall).ops
      = (DbOp.updateSet (docGet user ("_id".data) Json.null)
          (analyze_and_update_user user spendCall longCall shortCall
            goodCall badCall).update_data)
        :: (DbOp.findOne (docGet user ("_id".data) Json.null)) :: []
    ∧ (analyze_and_update_user user spendCall longCall shortCall
        goodCall badCall).update_data.map Prod.fst = derivedKeys
    ∧ (∀ doc : Doc, ∀ k : List Char, k ∉ derivedKeys →
        List.lookup k (applySet doc
          (analyze_and_update_user user spendCall longCall shortCall
            goodCall badCall).update_data)
          = List.lookup k doc)
    ∧ (∀ f d, DbOp.replaceDoc f d
        ∉ (analyze_and_update_user user spendCall longCall shortCall goodCall badCall).ops) := by
  refine ⟨rfl, rfl, ?_, ?_⟩
  · intro doc k hk
    apply lookup_applySet_not_mem
    intro hmem
    exact hk (by
      have hkeys : (analyze_and_update_user user spendCall longCall shortCall
          goodCall badCall).update_data.map Prod.fst = derivedKeys := rfl
      rw [← hkeys]
      exact hmem)
  · intro f d hmem
    have hops : (analyze_and_update_user user spendCall longCall shortCall
        goodCall badCall).ops
        = (DbOp.updateSet (docGet user ("_id".data) Json.null)
            (analyze_and_update_user user spendCall longCall shortCall
              goodCall badCall).update_data)
          :: (DbOp.findOne (docGet user ("_id".data) Json.null)) :: [] := rfl
    rw [hops] at hmem
    simp at hmem

theorem update_is_field_scoped_set_of_five_keys_witness :
    List.lookup ("email".data)
      (applySet
        [(("email".data), Json.str ("e@x".data)), (("financial".data), Json.num 1)]
        (analyze_and_update_user
          [(("email".data), Json.str ("e@x".data)), (("financial".data), Json.num 1)]
          (Except.ok (Json.obj [(("rating".data), Json.num 40)]))
          (fun _ => Except.ok (Json.obj []))
          (fun _ => Except.ok (Json.obj []))
          (Except.ok []) (Except.ok [])).update_data)
      = List.lookup ("email".data)
          [(("email".data), Json.str ("e@x".data)), (("financial".data), Json.num 1)] :=
  (update_is_field_scoped_set_of_five_keys
    [(("email".data), Json.str ("e@x".data)), (("financial".data), Json.num 1)]
    (Except.ok (Json.obj [(("rating".data), Json.num 40)]))
    (fun _ => Except.ok (Json.obj []))
    (fun _ => Except.ok (Json.obj []))
    (Except.ok []) (Except.ok [])).2.2.1
    [(("email".data), Json.str ("e@x".data)), (("financial".data), Json.num 1)]
    ("email".data) (by decide)

/-- A user record with non-empty prior derived fields. -/
def wUser : Doc :=
  [(("_id".data), Json.str ("507f1f77bcf86cd799439011".data)),
   (("email".data), Json.str ("user@example.com".data)),
   (("spend_analysis".data), Json.obj [(("rating".data), Json.num 80)]),
   (("longterm".data), Json.obj [(("longterm_goals".data), Json.arr [Json.str ("g1".data)])]),
   (("shortterm".data), Json.obj [(("shortterm_goals".data), Json.arr [Json.str ("s1".data)])]),
   (("good_habits".data), Json.arr [Json.obj [(("category".data), Json.str ("x".data))]]),
   (("bad_habits".data), Json.arr [Json.obj [(("habit".data), Json.str ("y".data))]])]

/-- A transport-level failure of the generation service. -/
def transportFail : GenOutcome := GenOutcome.raises (PyExn.openAIError ("Rate limit".data))

/-- C1 counterexample: with non-empty priors and all five stages failing at
the transport level, each stage function converts the failure into a truthy
error record (`call_openai` and the habit functions catch `OpenAIError` and
return `{"error": ...}`), so the merge takes the error records and the
merged `spend_analysis` differs from the prior stored value — the merged
DerivedFields is not the prior DerivedFields. -/
theorem transport_failure_overwrites_prior_cex :
    List.lookup ("spend_analysis".data)
      (analyze_and_update_user wUser
        (Except.ok (analyze_spending transportFail))
        (fun _ => Except.ok (generate_longterm_goals transportFail))
        (fun _ => Except.ok (generate_shortterm_goals transportFail))
        (Except.ok (identify_good_habits transportFail))
        (Except.ok (identify_bad_habits transportFail))).update_data
      = some (errDict ("OpenAI API error. Please try again later.".data))
    ∧ docGet wUser ("spend_analysis".data) (Json.obj [])
        = Json.obj [(("rating".data), Json.num 80)]
    ∧ (some (errDict ("OpenAI API error. Please try again later.".data)) : Option Json)
        ≠ some (Json.obj [(("rating".data), Json.num 80)]) := by
  refine ⟨rfl, rfl, ?_⟩
  intro h
  exact absurd (congrArg (fun o => match o with
    | some j => hasErrorKey j
    | none => false) h) (by decide)

/-- C1 (amended): when every one of the five stage calls raises an
exception (so the orchestrator's per-stage handlers substitute the prior
stored values) and every prior derived field is present, the merged
`update_data` equals the prior stored DerivedFields exactly; a
transport-level service failure, however, is converted inside the stage
functions into a truthy error record that replaces the prior value. -/
theorem merged_equals_prior_when_all_stages_raise (user : Doc)
    (e1 e2 e3 e4 e5 : PyExn) (p1 p2 p3 p4 p5 : Json)
    (h1 : List.lookup ("spend_analysis".data) user = some p1)
    (h2 : List.lookup ("longterm".data) user = some p2)
    (h3 : List.lookup ("shortterm".data) user = some p3)
    (h4 : List.lookup ("good_habits".data) user = some p4)
    (h5 : List.lookup ("bad_habits".data) user = some p5) :
    (analyze_and_update_user user (Except.error e1) (fun _ => Except.error e2)
        (fun _ => Except.error e3) (Except.error e4) (Except.error e5)).update_data
      = [(("spend_analysis".data), p1), (("longterm".data), p2), (("shortterm".data), p3),
         (("good_habits".data), p4), (("bad_habits".data), p5)] := by
  simp [analyze_and_update_user, mergeUpdateData, docGet, h1, h2, h3, h4, h5]

theorem merged_equals_prior_when_all_stages_raise_witness :
    (analyze_and_update_user wUser (Except.error (PyExn.typeError ("boom".data)))
        (fun _ => Except.error (PyExn.typeError ("boom".data)))
        (fun _ => Except.error (PyExn.typeError ("boom".data)))
        (Except.error (PyExn.typeError ("boom".data)))
        (Except.error (PyExn.typeError ("boom".data)))).update_data
      = [(("spend_analysis".data), Json.obj [(("rating".data), Json.num 80)]),
         (("longterm".data), Json.obj [(("longterm_goals".data), Json.arr [Json.str ("g1".data)])]),
         (("shortterm".data), Json.obj [(("shortterm_goals".data), Json.arr [Json.str ("s1".data)])]),
         (("good_habits".data), Json.arr [Json.obj [(("category".data), Json.str ("x".data))]]),
         (("bad_habits".data), Json.arr [Json.obj [(("habit".data), Json.str ("y".data))]])] :=
  merged_equals_prior_when_all_stages_raise wUser
    (PyExn.typeError ("boom".data)) (PyExn.typeError ("boom".data))
    (PyExn.typeError ("boom".data)) (PyExn.typeError ("boom".data))
    (PyExn.typeError ("boom".data))
    (Json.obj [(("rating".data), Json.num 80)])
    (Json.obj [(("longterm_goals".data), Json.arr [Json.str ("g1".data)])])
    (Json.obj [(("shortterm_goals".data), Json.arr [Json.str ("s1".data)])])
    (Json.arr [Json.obj [(("category".data), Json.str ("x".data))]])
    (Json.arr [Json.obj [(("habit".data), Json.str ("y".data))]])
    rfl rfl rfl rfl rfl

/-! ## Endpoint claims -/

/-- A stored user with non-empty financial data. -/
def wFinUser : Doc :=
  [(("financial".data), Json.obj [(("monthlyIncome".data), Json.num 50000)])]

/-- A valid 24-hex identifier. -/
def validId : List Char := "507f1f77bcf86cd799439011".data

/-- C8 counterexample: with the single spending-rating stage failing at the
transport level, the ad hoc analysis endpoint responds with a 200 success
payload whose `analysis` field is the error record — not a 500-class
failure (the 500 branch is unreachable because `call_openai` catches every
exception itself). -/
theorem adhoc_failure_returns_success_cex :
    (analyze_user_finances validId (some wFinUser) transportFail).1
      = HTTPResult.ok (Json.obj
          [(("user_id".data), Json.str validId),
           (("analysis".data),
            errDict ("OpenAI API error. Please try again later.".data))])
    ∧ (analyze_user_finances validId (some wFinUser) transportFail).1.isOk = true :=
  ⟨rfl, rfl⟩

/-- C8 (amended): for every behaviour of the generation service, once the
identifier validates and the user has financial data, the ad hoc endpoint
returns a 200 payload embedding `call_openai`'s result; a failing stage
yields a success payload carrying an error record rather than a 500-class
failure, because the stage converts its own failures into error records and
never raises into the endpoint's `except` branch. -/
theorem adhoc_analysis_embeds_stage_result (user_id : List Char) (user : Doc)
    (o : GenOutcome) (hid : isValidObjectId user_id = true)
    (hfin : (docGet user ("financial".data) (Json.obj [])).truthy = true) :
    analyze_user_finances user_id (some user) o
      = (HTTPResult.ok (Json.obj
           [(("user_id".data), Json.str user_id),
            (("analysis".data), call_openai o)]),
         (DbOp.findOne (Json.str user_id)) :: []) := by
  unfold analyze_user_finances
  rw [hid]
  simp [hfin, analyze_spending]

theorem adhoc_analysis_embeds_stage_result_witness :
    analyze_user_finances validId (some wFinUser) transportFail
      = (HTTPResult.ok (Json.obj
           [(("user_id".data), Json.str validId),
            (("analysis".data), call_openai transportFail)]),
         (DbOp.findOne (Json.str validId)) :: []) :=
  adhoc_analysis_embeds_stage_result validId wFinUser transportFail rfl rfl

/-- C9: a 24-hex-character identifier passes `ObjectId.is_valid`; a
10-character or non-hex identifier is rejected by the trigger, ad hoc
analysis and delete endpoints with the 400 validation error while the
persistence-operation trace stays empty — no read, write or delete is
attempted. -/
theorem objectid_validation_guards_endpoints (good bad : List Char)
    (hgood : good.length = 24 ∧ ∀ c ∈ good, isHexChar c = true)
    (hbad : bad.length = 10 ∨ ∃ c ∈ bad, isHexChar c = false) :
    isValidObjectId good = true
    ∧ (∀ fr sc lc shc gc bc, verify_and_run_analysis bad fr sc lc shc gc bc
        = (HTTPResult.httpError 400 ("Invalid ObjectID format".data), []))
    ∧ (∀ fr o, analyze_user_finances bad fr o
        = (HTTPResult.httpError 400 ("Invalid ObjectID format".data), []))
    ∧ (∀ n, delete_user bad n
        = (HTTPResult.httpError 400 ("Invalid ObjectID format".data), [])) := by
  have hb : isValidObjectId bad = false := by
    unfold isValidObjectId
    rcases hbad with h | ⟨c, hc, hcf⟩
    · simp [h]
    · have hall : bad.all isHexChar = false := by
        rcases hall2 : bad.all isHexChar with _ | _
        · rfl
        · exact absurd (List.all_eq_true.mp hall2 c hc)
            (by rw [hcf]; exact Bool.false_ne_true)
      simp [hall]
  refine ⟨?_, ?_, ?_, ?_⟩
  · unfold isValidObjectId
    rw [List.all_eq_true.mpr hgood.2, hgood.1]
    rfl
  · intro fr sc lc shc gc bc
    unfold verify_and_run_analysis
    rw [hb]
    rfl
  · intro fr o
    unfold analyze_user_finances
    rw [hb]
    rfl
  · intro n
    unfold delete_user
    rw [hb]
    rfl

theorem objectid_validation_guards_endpoints_witness :
    isValidObjectId ("0123456789abcdef01234567".data) = true
    ∧ delete_user ("shortshort".data) 1
        = (HTTPResult.httpError 400 ("Invalid ObjectID format".data), []) := by
  obtain ⟨hv, -, -, hd⟩ := objectid_validation_guards_endpoints
    ("0123456789abcdef01234567".data) ("shortshort".data)
    (by refine ⟨rfl, ?_⟩; decide) (Or.inl rfl)
  exact ⟨hv, hd 1⟩

end Monetaic
